import Mathlib

/-!
CCAT PCI bring-up core (`ccat.c`): shallow embedding and verified properties.

The driver code of `ccat.c` is embedded as pure functions over an explicit platform
state.  Pointers and handles are natural numbers (`0` is `NULL`), machine integers are
natural numbers reduced modulo `2 ^ w` wherever the C arithmetic can wrap, and every call
the driver issues to the kernel or to the hardware is appended to a chronological trace.
The behaviour of the kernel and of the hardware (return codes, register readbacks,
allocation results) is supplied by an environment of oracles, so that every theorem holds
for every behaviour of the platform.  `pr_info` / `pr_warn` log lines are not modelled.
-/

namespace CCAT

/-! ## Constants and machine arithmetic -/

/-- Modelled from the spec: the kernel macro `PAGE_SIZE` is not defined in the driver
sources; the specification fixes the page size at 4096 bytes. -/
def PAGE_SIZE : Nat := 4096

/-- Kernel resource flag `IORESOURCE_MEM` (`include/linux/ioport.h`). -/
def IORESOURCE_MEM : Nat := 0x200

/-- Kernel error number `EIO`. -/
def EIO : Int := 5

/-- Kernel error number `EINVAL`. -/
def EINVAL : Int := 22

/-- Kernel error number `EBUSY`. -/
def EBUSY : Int := 16

/-- Function type tag `CCATINFO_ETHERCAT_MASTER_DMA` of `enum ccat_info_t`. -/
def CCATINFO_ETHERCAT_MASTER_DMA : Nat := 0x14

/-- Function type tag `CCATINFO_GPIO` of `enum ccat_info_t`. -/
def CCATINFO_GPIO : Nat := 0xd

/-- Size in bytes of `struct ccat_info_block` (`module.h`): `u16 type`, `u16 rev`, a 4-byte
union, `u32 addr`, `u32 size`.  It is the stride `sizeof(priv->info)` of the function-table
scan: `priv->info` holds one function-table entry. -/
def sizeof_ccat_info_block : Nat := 2 + 2 + 4 + 4 + 4

/-- The data models the kernel can be built for: they fix the width of `unsigned long` /
`size_t` and of `dma_addr_t`. -/
inductive Arch where
  | ilp32
  | ilp32_dma64
  | lp64
  deriving DecidableEq, Repr

/-- Width in bits of `unsigned long` and `size_t`. -/
def Arch.BITS_PER_LONG : Arch → Nat
  | .ilp32 => 32
  | .ilp32_dma64 => 32
  | .lp64 => 64

/-- Width in bits of `dma_addr_t`. -/
def Arch.dma_addr_bits : Arch → Nat
  | .ilp32 => 32
  | .ilp32_dma64 => 64
  | .lp64 => 64

/-- Truncation to `uint32_t`. -/
def u32 (x : Nat) : Nat := x % 2 ^ 32

/-- Bitwise complement `~x` of a `uint32_t`. -/
def not32 (x : Nat) : Nat := 2 ^ 32 - 1 - x % 2 ^ 32

/-- Line 97: `memTranslate = data & 0xfffffffc`. -/
def memTranslate_of (data : Nat) : Nat := u32 data &&& 0xfffffffc

/-- Line 98: `memSize = (~memTranslate) + 1`, in `uint32_t` arithmetic. -/
def memSize_of (memTranslate : Nat) : Nat := u32 (not32 memTranslate + 1)

/-- Line 99: `dma->size = 2 * memSize - PAGE_SIZE`.  The product is a `uint32_t` product;
the difference is taken in `unsigned long` and stored in a `size_t`. -/
def dma_size (a : Arch) (memSize : Nat) : Nat :=
  (u32 (2 * memSize) + 2 ^ a.BITS_PER_LONG - PAGE_SIZE) % 2 ^ a.BITS_PER_LONG

/-- Line 112: `translateAddr = (dma->phys + memSize - PAGE_SIZE) & memTranslate`.  The sum
and difference are computed in `dma_addr_t`, the mask is a zero-extended `uint32_t`, and
the result is stored in a `uint32_t`. -/
def translateAddr_of (a : Arch) (phys memSize memTranslate : Nat) : Nat :=
  u32 ((((phys + memSize) % 2 ^ a.dma_addr_bits + 2 ^ a.dma_addr_bits - PAGE_SIZE)
    % 2 ^ a.dma_addr_bits) &&& memTranslate)

/-- Line 115: `frame = dma->virt + translateAddr - dma->phys`, as a mathematical address. -/
def frame_of (virt translateAddr phys : Nat) : Int :=
  (virt : Int) + (translateAddr : Int) - (phys : Int)

/-- Line 88: `offset = (sizeof(uint64_t) * channel) + 0x1000`, stored in a `uint32_t`. -/
def dma_offset (channel : Nat) : Nat := u32 (8 * channel + 0x1000)

/-! ## Data model -/

/-- The driver's `struct ccat_bar`. -/
structure ccat_bar where
  start : Nat
  end_ : Nat
  len : Nat
  flags : Nat
  ioaddr : Nat
  deriving DecidableEq, Repr

/-- The driver's `struct ccat_dma`. -/
structure ccat_dma where
  phys : Nat
  virt : Nat
  size : Nat
  channel : Nat
  dev : Nat
  deriving DecidableEq, Repr

/-- Result of `memset(bar, 0, sizeof(*bar))`. -/
def ccat_bar.zero : ccat_bar := ⟨0, 0, 0, 0, 0⟩

/-- Result of `memset(dma, 0, sizeof(*dma))`. -/
def ccat_dma.zero : ccat_dma := ⟨0, 0, 0, 0, 0⟩

/-- Modelled from the spec: `struct ccat_eth_priv` is declared in a header that is not
part of the sources.  The Device aggregates its register windows (bars 0 and 2 are used),
the transmit and receive DMA channels and back-references to the PCI device and the
network device; these are the fields that `ccat.c` reads or writes. -/
structure ccat_eth_priv where
  pdev : Nat
  netdev : Nat
  bar0 : ccat_bar
  bar2 : ccat_bar
  tx_dma : ccat_dma
  rx_dma : ccat_dma
  deriving DecidableEq, Repr

/-- Private data as `alloc_etherdev` hands it out: zero-filled. -/
def ccat_eth_priv.zero : ccat_eth_priv :=
  ⟨0, 0, ccat_bar.zero, ccat_bar.zero, ccat_dma.zero, ccat_dma.zero⟩

/-- A live coherent buffer: the arguments that identify it to `dma_free_coherent`. -/
structure Buffer where
  dev : Nat
  size : Nat
  virt : Nat
  phys : Nat
  deriving DecidableEq, Repr

/-- A mapped view established by `ioremap`. -/
structure Mapping where
  ioaddr : Nat
  start : Nat
  len : Nat
  deriving DecidableEq, Repr

/-- Calls the driver issues to the kernel, to the hardware and to the data-path driver. -/
inductive Call where
  | pci_enable_device (pdev : Nat)
  | pci_disable_device (pdev : Nat)
  | pci_set_master (pdev : Nat)
  | pci_read_config_byte (pdev : Nat)
  | pci_set_drvdata (pdev netdev : Nat)
  | dma_set_mask (pdev bits : Nat)
  | request_mem_region (start len : Nat)
  | release_mem_region (start len : Nat)
  | ioremap (start len : Nat)
  | iounmap (ioaddr : Nat)
  | ioread8 (addr : Nat)
  | ioread16 (addr : Nat)
  | ioread32 (addr : Nat)
  | iowrite32 (val addr : Nat)
  | wmb
  | memcpy_toio (addr val : Nat)
  | dma_zalloc_coherent (dev size : Nat)
  | dma_free_coherent (dev size virt phys : Nat)
  | request_dma (channel : Nat)
  | free_dma (channel : Nat)
  | memset_bar
  | memset_dma
  | alloc_etherdev
  | free_netdev (netdev : Nat)
  | ccat_eth_init (addr : Nat)
  | ccat_eth_remove (netdev : Nat)
  | ccat_eth_init_netdev (netdev : Nat)
  deriving DecidableEq, Repr

/-- Explicit platform state: reserved memory ranges, mapped views, live coherent buffers,
held DMA channels, and the chronological trace of calls issued. -/
structure Platform where
  reserved : List (Nat × Nat)
  mapped : List Mapping
  buffers : List Buffer
  channels : List Nat
  trace : List Call
  deriving DecidableEq, Repr

/-- A platform on which nothing is reserved, mapped, allocated or held. -/
def Platform.empty : Platform := ⟨[], [], [], [], []⟩

/-- Append one call to the trace. -/
def Platform.log (p : Platform) (c : Call) : Platform :=
  { p with trace := p.trace ++ [c] }

/-- Behaviour of everything outside `ccat.c`: kernel return codes, hardware readbacks,
and the three functions of the data-path driver (`netdev.c`) that `ccat.c` calls. -/
structure Env where
  /-- Number of DMA channels the platform has (`MAX_DMA_CHANNELS`). -/
  MAX_DMA_CHANNELS : Nat
  /-- Status returned by `pci_enable_device(pdev)`. -/
  pci_enable_device : Nat → Int
  /-- Status returned by `pci_read_config_byte(pdev, PCI_REVISION_ID, &revision)`. -/
  pci_read_config_byte : Nat → Int
  /-- Status returned by `dma_set_mask(&pdev->dev, DMA_BIT_MASK(bits))`. -/
  dma_set_mask : Nat → Nat → Int
  /-- Resource table of a device: `pci_resource_start(pdev, index)`. -/
  pci_resource_start : Nat → Nat → Nat
  /-- Resource table of a device: `pci_resource_end(pdev, index)`. -/
  pci_resource_end : Nat → Nat → Nat
  /-- Resource table of a device: `pci_resource_len(pdev, index)`. -/
  pci_resource_len : Nat → Nat → Nat
  /-- Resource table of a device: `pci_resource_flags(pdev, index)`. -/
  pci_resource_flags : Nat → Nat → Nat
  /-- Whether the kernel can book a range that conflicts with no reservation. -/
  region_grant : Nat → Nat → Bool
  /-- Address returned by `ioremap(start, len)`; `0` is failure. -/
  ioremap : Nat → Nat → Nat
  /-- Value read by `ioread8(addr)`. -/
  ioread8 : Nat → Nat
  /-- Value read by `ioread16(addr)`. -/
  ioread16 : Nat → Nat
  /-- Value read by `ioread32(addr)` after the all-ones probe write. -/
  ioread32 : Nat → Nat
  /-- The pair (CPU address, device address) produced by `dma_zalloc_coherent(dev, size)`. -/
  dma_zalloc_coherent : Nat → Nat → Nat × Nat
  /-- Pointer returned by `alloc_etherdev`; `0` is failure. -/
  alloc_etherdev : Nat
  /-- The data-path driver's `ccat_eth_init(priv, addr)`, not part of the sources. -/
  ccat_eth_init : ccat_eth_priv → Nat → Platform → Int × ccat_eth_priv × Platform
  /-- The data-path driver's `ccat_eth_remove(netdev)`, not part of the sources. -/
  ccat_eth_remove : ccat_eth_priv → Platform → ccat_eth_priv × Platform
  /-- The data-path driver's `ccat_eth_init_netdev(netdev)`, not part of the sources. -/
  ccat_eth_init_netdev : ccat_eth_priv → Platform → Int × ccat_eth_priv × Platform

/-! ## Platform operations -/

/-- Two address ranges `(start, len)` share at least one byte. -/
def overlaps (r s : Nat × Nat) : Bool :=
  decide (r.1 < s.1 + s.2) && decide (s.1 < r.1 + r.2)

/-- Kernel `request_mem_region`: books the range unless it conflicts with a reservation
or the kernel cannot book it; returns whether a resource was obtained. -/
def request_mem_region (env : Env) (p : Platform) (start len : Nat) : Bool × Platform :=
  let p := p.log (.request_mem_region start len)
  if env.region_grant start len && !(p.reserved.any (overlaps (start, len))) then
    (true, { p with reserved := (start, len) :: p.reserved })
  else
    (false, p)

/-- Kernel `release_mem_region`: removes the reservation with exactly this range. -/
def release_mem_region (p : Platform) (start len : Nat) : Platform :=
  let p := p.log (.release_mem_region start len)
  { p with reserved := p.reserved.erase (start, len) }

/-- Kernel `ioremap`: returns the mapped address, `0` on failure. -/
def ioremap (env : Env) (p : Platform) (start len : Nat) : Nat × Platform :=
  let p := p.log (.ioremap start len)
  let ioaddr := env.ioremap start len
  if ioaddr ≠ 0 then
    (ioaddr, { p with mapped := ⟨ioaddr, start, len⟩ :: p.mapped })
  else
    (0, p)

/-- Kernel `iounmap`: drops the views mapped at this address. -/
def iounmap (p : Platform) (ioaddr : Nat) : Platform :=
  let p := p.log (.iounmap ioaddr)
  { p with mapped := p.mapped.filter (fun m => m.ioaddr ≠ ioaddr) }

/-- Kernel `dma_zalloc_coherent`: returns the CPU address (`0` on failure), a pointer, and
stores the device address, a `dma_addr_t`; the buffer is live exactly when the CPU address
is not null. -/
def dma_zalloc_coherent (a : Arch) (env : Env) (p : Platform) (dev size : Nat) :
    (Nat × Nat) × Platform :=
  let p := p.log (.dma_zalloc_coherent dev size)
  let r : Nat × Nat := ((env.dma_zalloc_coherent dev size).1 % 2 ^ a.BITS_PER_LONG,
    (env.dma_zalloc_coherent dev size).2 % 2 ^ a.dma_addr_bits)
  if r.1 ≠ 0 then
    (r, { p with buffers := ⟨dev, size, r.1, r.2⟩ :: p.buffers })
  else
    (r, p)

/-- Kernel `dma_free_coherent`: the buffer identified by the arguments stops being live. -/
def dma_free_coherent (p : Platform) (dev size virt phys : Nat) : Platform :=
  let p := p.log (.dma_free_coherent dev size virt phys)
  { p with buffers := p.buffers.erase ⟨dev, size, virt, phys⟩ }

/-- Kernel `request_dma`: `-EINVAL` for a channel number out of range, `-EBUSY` for a
channel that is held, otherwise the channel becomes held and `0` is returned. -/
def request_dma (env : Env) (p : Platform) (channel : Nat) : Int × Platform :=
  let p := p.log (.request_dma channel)
  if env.MAX_DMA_CHANNELS ≤ channel then
    (- EINVAL, p)
  else if channel ∈ p.channels then
    (- EBUSY, p)
  else
    (0, { p with channels := channel :: p.channels })

/-- Kernel `free_dma`: the channel stops being held, whoever held it. -/
def free_dma (env : Env) (p : Platform) (channel : Nat) : Platform :=
  let p := p.log (.free_dma channel)
  if env.MAX_DMA_CHANNELS ≤ channel then p
  else { p with channels := p.channels.erase channel }

/-! ## The driver functions of `ccat.c` -/

/-- `ccat_bar_init` (lines 40-69). -/
def ccat_bar_init (env : Env) (bar : ccat_bar) (index pdev : Nat) (p : Platform) :
    Int × ccat_bar × Platform :=
  let bar := { bar with
    start := env.pci_resource_start pdev index,
    end_ := env.pci_resource_end pdev index,
    len := env.pci_resource_len pdev index,
    flags := env.pci_resource_flags pdev index }
  if IORESOURCE_MEM &&& bar.flags = 0 then
    (- EIO, bar, p)
  else
    let res := request_mem_region env p bar.start bar.len
    if res.1 = false then
      (- EIO, bar, res.2)
    else
      let m := ioremap env res.2 bar.start bar.len
      let bar := { bar with ioaddr := m.1 }
      if bar.ioaddr = 0 then
        (- EIO, bar, release_mem_region m.2 bar.start bar.len)
      else
        (0, bar, m.2)

/-- `ccat_dma_free` (lines 71-77): `free_dma` on the channel, zero the descriptor, then
`dma_free_coherent` on the saved copy.  Both kernel calls take the channel number as
`unsigned int`. -/
def ccat_dma_free (env : Env) (dma : ccat_dma) (p : Platform) : ccat_dma × Platform :=
  let tmp := dma
  let p := free_dma env p (u32 dma.channel)
  let p := p.log .memset_dma
  let p := dma_free_coherent p tmp.dev tmp.size tmp.virt tmp.phys
  (ccat_dma.zero, p)

/-- `ccat_dma_init` (lines 79-122).  The two trailing `ioread32` calls are the register
reads in the argument list of the final log line. -/
def ccat_dma_init (a : Arch) (env : Env) (dma : ccat_dma) (channel ioaddr dev : Nat)
    (p : Platform) : Int × ccat_dma × Platform :=
  let data := 0xffffffff
  let offset := dma_offset channel
  let dma := { dma with channel := channel, dev := dev }
  let p := p.log (.iowrite32 data (ioaddr + offset))
  let p := p.log .wmb
  let p := p.log (.ioread32 (ioaddr + offset))
  let data := u32 (env.ioread32 (ioaddr + offset))
  let memTranslate := memTranslate_of data
  let memSize := memSize_of memTranslate
  let dma := { dma with size := dma_size a memSize }
  let r := dma_zalloc_coherent a env p dev dma.size
  let dma := { dma with virt := r.1.1, phys := r.1.2 }
  if dma.virt = 0 ∨ dma.phys = 0 then
    (-1, dma, r.2)
  else
    let q := request_dma env r.2 (u32 channel)
    if q.1 ≠ 0 then
      let f := ccat_dma_free env dma q.2
      (-1, f.1, f.2)
    else
      let translateAddr := translateAddr_of a dma.phys memSize memTranslate
      let p := q.2.log (.memcpy_toio (ioaddr + offset) translateAddr)
      let p := p.log (.ioread32 (ioaddr + offset + 4))
      let p := p.log (.ioread32 (ioaddr + offset))
      (0, dma, p)

/-- The scan loop of `ccat_init_pci` (lines 193-199), by recursion on the number of
entries still to visit: `for (i = 0, addr = bar[0].ioaddr; i < num_functions; ++i,
addr += sizeof(priv->info))`. -/
def ccat_init_pci_scan (env : Env) : Nat → Nat → Int → ccat_eth_priv → Platform →
    Int × ccat_eth_priv × Platform
  | 0, _, status, priv, p => (status, priv, p)
  | remaining + 1, addr, status, priv, p =>
    let p := p.log (.ioread16 addr)
    if CCATINFO_ETHERCAT_MASTER_DMA = env.ioread16 addr % 2 ^ 16 then
      env.ccat_eth_init priv addr (p.log (.ccat_eth_init addr))
    else
      ccat_init_pci_scan env remaining (addr + sizeof_ccat_info_block) status priv p

/-- `ccat_init_pci` (lines 146-201). -/
def ccat_init_pci (env : Env) (priv : ccat_eth_priv) (p : Platform) :
    Int × ccat_eth_priv × Platform :=
  let pdev := priv.pdev
  let p := p.log (.pci_enable_device pdev)
  let status := env.pci_enable_device pdev
  if status ≠ 0 then
    (status, priv, p)
  else
    let p := p.log (.pci_set_master pdev)
    let p := p.log (.pci_read_config_byte pdev)
    let status := env.pci_read_config_byte pdev
    if status ≠ 0 then
      (status, priv, p)
    else
      let p := p.log (.dma_set_mask pdev 64)
      let p := if env.dma_set_mask pdev 64 = 0 then p else p.log (.dma_set_mask pdev 32)
      let b0 := ccat_bar_init env priv.bar0 0 priv.pdev p
      let priv := { priv with bar0 := b0.2.1 }
      if b0.1 ≠ 0 then
        (- EIO, priv, b0.2.2)
      else
        let b2 := ccat_bar_init env priv.bar2 2 priv.pdev b0.2.2
        let priv := { priv with bar2 := b2.2.1 }
        if b2.1 ≠ 0 then
          (- EIO, priv, b2.2.2)
        else
          let p := b2.2.2.log (.ioread8 (priv.bar0.ioaddr + 4))
          let num_functions := env.ioread8 (priv.bar0.ioaddr + 4) % 2 ^ 8
          ccat_init_pci_scan env num_functions priv.bar0.ioaddr status priv p

/-- A platform behaviour in which every kernel call succeeds, every register reads zero,
`ioremap` maps a range at its own physical address, eight DMA channels exist, and the
data-path driver's functions succeed without touching anything. -/
def Env.quiet : Env where
  MAX_DMA_CHANNELS := 8
  pci_enable_device := fun _ => 0
  pci_read_config_byte := fun _ => 0
  dma_set_mask := fun _ _ => 0
  pci_resource_start := fun _ index => 0xF0000000 + index * 0x100000
  pci_resource_end := fun _ index => 0xF0000000 + index * 0x100000 + 0xFFFF
  pci_resource_len := fun _ _ => 0x10000
  pci_resource_flags := fun _ _ => IORESOURCE_MEM
  region_grant := fun _ _ => true
  ioremap := fun start _ => start
  ioread8 := fun _ => 0
  ioread16 := fun _ => 0
  ioread32 := fun _ => 0
  dma_zalloc_coherent := fun _ _ => (0x80000000, 0x12345000)
  alloc_etherdev := 0x5000
  ccat_eth_init := fun priv _ p => (0, priv, p)
  ccat_eth_remove := fun priv p => (priv, p)
  ccat_eth_init_netdev := fun priv p => (0, priv, p)

/-- Scenario C: the function table at the base of region 0 holds a GPIO entry (`0xd`)
followed by an EtherCAT-master-DMA entry (`0x14`); the entry count byte is 5. -/
def Env.scenarioC : Env :=
  { Env.quiet with
    ioread8 := fun _ => 5
    ioread16 := fun addr =>
      if addr = 0xF0000000 then CCATINFO_GPIO
      else if addr = 0xF0000000 + sizeof_ccat_info_block then CCATINFO_ETHERCAT_MASTER_DMA
      else 0 }

/-- Scenario D: the function table holds two entries, a GPIO entry (`0xd`) and an EPCS
PROM entry (`0xf`); no entry has the tag `0x14`. -/
def Env.scenarioD : Env :=
  { Env.quiet with
    ioread8 := fun _ => 2
    ioread16 := fun addr =>
      if addr = 0xF0000000 then CCATINFO_GPIO
      else if addr = 0xF0000000 + sizeof_ccat_info_block then 0xf
      else 0 }

/-- Scenario A: the alignment register reads back `0xFFFFFFFC`, and the platform refuses
the coherent allocation. -/
def Env.scenarioA : Env :=
  { Env.quiet with
    ioread32 := fun _ => 0xFFFFFFFC
    dma_zalloc_coherent := fun _ _ => (0, 0) }

/-- Scenario A on a platform that grants every coherent allocation. -/
def Env.scenarioA_granting : Env :=
  { Env.quiet with ioread32 := fun _ => 0xFFFFFFFC }

/-- Scenario B: the alignment register reads back `0xFFFF0000`; allocations are granted. -/
def Env.scenarioB : Env :=
  { Env.quiet with ioread32 := fun _ => 0xFFFF0000 }

/-- Scenario B on a platform whose allocator reports the device address `0` together with
a non-null CPU address. -/
def Env.scenarioB_zero_phys : Env :=
  { Env.quiet with
    ioread32 := fun _ => 0xFFFF0000
    dma_zalloc_coherent := fun _ _ => (0x80000000, 0) }

/-- A platform on which DMA channel 3 is held by another owner. -/
def Platform.channel3_held : Platform := ⟨[], [], [], [3], []⟩

/-- The type tag of entry `j` of the function table at `base`, as `ioread16` returns it. -/
def entry_type (env : Env) (base j : Nat) : Nat :=
  env.ioread16 (base + j * sizeof_ccat_info_block) % 2 ^ 16

/-- The reads of the type tags of entries `0 .. count - 1` of the table at `base`. -/
def type_reads (base count : Nat) : List Call :=
  (List.range count).map (fun i => Call.ioread16 (base + i * sizeof_ccat_info_block))

/-! ## Arithmetic of the alignment mask -/

theorem testBit_high_mask (k i : Nat) (hk : k ≤ 32) :
    (2 ^ 32 - 2 ^ k).testBit i = (decide (k ≤ i) && decide (i < 32)) := by
  have h : 2 ^ 32 - 2 ^ k = 2 ^ k * (2 ^ (32 - k) - 1) := by
    rw [Nat.mul_sub, ← pow_add, Nat.add_sub_cancel' hk, mul_one]
  rw [h, Nat.testBit_mul_pow_two, Nat.testBit_two_pow_sub_one]
  by_cases h1 : k ≤ i <;> by_cases h2 : i < 32 <;> simp [h1, h2] <;> omega

/-- Masking a 32-bit value with the mask `2^32 - 2^k` rounds it down to a multiple of `2^k`. -/
theorem and_high_mask (x k : Nat) (hx : x < 2 ^ 32) (hk : k ≤ 32) :
    x &&& (2 ^ 32 - 2 ^ k) = x / 2 ^ k * 2 ^ k := by
  apply Nat.eq_of_testBit_eq
  intro i
  rw [Nat.testBit_and, testBit_high_mask k i hk, Nat.mul_comm, Nat.testBit_mul_pow_two,
    ← Nat.shiftRight_eq_div_pow, Nat.testBit_shiftRight]
  by_cases h1 : k ≤ i
  · by_cases h2 : i < 32
    · simp [h1, h2, Nat.add_sub_cancel' h1]
    · have : x.testBit i = false := by
        apply Nat.testBit_lt_two_pow
        exact lt_of_lt_of_le hx (Nat.pow_le_pow_right (by decide) (by omega))
      simp [h1, h2, this, Nat.add_sub_cancel' h1]
  · simp [h1]

theorem two_pow_bounds (k : Nat) (h1 : 12 ≤ k) (h2 : k ≤ 31) :
    4096 ≤ 2 ^ k ∧ 2 ^ k ≤ 2147483648 ∧ 4096 ∣ 2 ^ k := by
  refine ⟨?_, ?_, ?_⟩
  · exact (Nat.pow_le_pow_right (by decide) h1 : 2 ^ 12 ≤ 2 ^ k)
  · exact (Nat.pow_le_pow_right (by decide) h2 : 2 ^ k ≤ 2 ^ 31)
  · exact (pow_dvd_pow 2 h1 : 2 ^ 12 ∣ 2 ^ k)

/-- A mask whose derived size is `2^k` is the contiguous high mask `2^32 - 2^k`. -/
theorem mask_of_memSize (m k : Nat) (hm : m < 2 ^ 32) (hk : k ≤ 31)
    (h : memSize_of m = 2 ^ k) : m = 2 ^ 32 - 2 ^ k := by
  have hp : 0 < 2 ^ k := Nat.pos_pow_of_pos k (by decide)
  have hle : 2 ^ k ≤ 2 ^ 31 := Nat.pow_le_pow_right (by decide) hk
  unfold memSize_of u32 not32 at h
  norm_num at hm h hle ⊢
  omega

/-- The contiguous high mask `2^32 - 2^k` yields the size `2^k`. -/
theorem memSize_of_high_mask (k : Nat) (hk : k ≤ 31) :
    memSize_of (2 ^ 32 - 2 ^ k) = 2 ^ k := by
  have hp : 0 < 2 ^ k := Nat.pos_pow_of_pos k (by decide)
  have hle : 2 ^ k ≤ 2 ^ 31 := Nat.pow_le_pow_right (by decide) hk
  unfold memSize_of u32 not32
  norm_num at hle ⊢
  omega

/-- Rounding `phys + s - P` down to a multiple of `s` lands in `[phys, phys + s - P]` when
`P` divides both `phys` and `s`. -/
theorem round_down_window (phys s P : Nat) (hP : 0 < P) (hs : P ≤ s) (hPs : P ∣ s)
    (hPp : P ∣ phys) :
    phys ≤ (phys + s - P) / s * s ∧ (phys + s - P) / s * s ≤ phys + s - P := by
  have hs0 : 0 < s := lt_of_lt_of_le hP hs
  refine ⟨?_, Nat.div_mul_le_self _ _⟩
  have hdm := Nat.div_add_mod phys s
  have hr : phys % s < s := Nat.mod_lt _ hs0
  have hdr : P ∣ phys % s := (Nat.dvd_mod_iff hPs).2 hPp
  by_cases h0 : phys % s = 0
  · have hq : phys / s ≤ (phys + s - P) / s := by
      apply (Nat.le_div_iff_mul_le hs0).2
      rw [Nat.mul_comm]
      omega
    calc phys = phys / s * s := by rw [Nat.mul_comm]; omega
      _ ≤ (phys + s - P) / s * s := Nat.mul_le_mul_right s hq
  · have hge : P ≤ phys % s := Nat.le_of_dvd (Nat.pos_of_ne_zero h0) hdr
    have hq : phys / s + 1 ≤ (phys + s - P) / s := by
      apply (Nat.le_div_iff_mul_le hs0).2
      rw [Nat.add_mul, Nat.mul_comm, one_mul]
      omega
    calc phys ≤ (phys / s + 1) * s := by rw [Nat.add_mul, Nat.mul_comm, one_mul]; omega
      _ ≤ (phys + s - P) / s * s := Nat.mul_le_mul_right s hq

/-- Subtracting `P` in arithmetic modulo `M` after a sum that may have wrapped. -/
theorem sub_mod_wrap (x M P : Nat) (hP : P ≤ x) (hPM : P ≤ M) (hfit : x - P < M) :
    (x % M + M - P) % M = x - P := by
  by_cases hx : x < M
  · rw [Nat.mod_eq_of_lt hx]
    have e : x + M - P = (x - P) + M := by omega
    rw [e, Nat.add_mod_right]
    exact Nat.mod_eq_of_lt hfit
  · have e1 : x % M = x - M := by
      rw [Nat.mod_eq_sub_mod (by omega)]
      exact Nat.mod_eq_of_lt (by omega)
    rw [e1]
    have e : x - M + M - P = x - P := by omega
    rw [e]
    exact Nat.mod_eq_of_lt hfit

/-- The translated address on the no-wrap range: the round-down of `phys + 2^k - PAGE_SIZE`
to a multiple of `2^k`. -/
theorem translateAddr_of_eq (a : Arch) (phys k : Nat) (h1 : 12 ≤ k) (h2 : k ≤ 31)
    (hfit : phys + 2 ^ k - PAGE_SIZE < 2 ^ 32) :
    translateAddr_of a phys (2 ^ k) (2 ^ 32 - 2 ^ k)
      = (phys + 2 ^ k - PAGE_SIZE) / 2 ^ k * 2 ^ k := by
  obtain ⟨hlo, hhi, -⟩ := two_pow_bounds k h1 h2
  have hD : 2 ^ 32 ≤ 2 ^ a.dma_addr_bits := by cases a <;> decide
  have hy : ((phys + 2 ^ k) % 2 ^ a.dma_addr_bits + 2 ^ a.dma_addr_bits - PAGE_SIZE)
      % 2 ^ a.dma_addr_bits = phys + 2 ^ k - PAGE_SIZE := by
    unfold PAGE_SIZE at hfit ⊢
    exact sub_mod_wrap _ _ _ (by omega) (by omega) (by omega)
  unfold translateAddr_of
  rw [hy, and_high_mask _ k hfit (by omega)]
  unfold u32
  exact Nat.mod_eq_of_lt (lt_of_le_of_lt (Nat.div_mul_le_self _ _) hfit)

/-- The buffer size on the no-wrap range. -/
theorem dma_size_eq (a : Arch) (k : Nat) (h1 : 12 ≤ k) (h2 : k ≤ 30) :
    dma_size a (2 ^ k) = 2 * 2 ^ k - PAGE_SIZE := by
  obtain ⟨hlo, -, -⟩ := two_pow_bounds k h1 (by omega)
  have hle : 2 ^ k ≤ 2 ^ 30 := Nat.pow_le_pow_right (by decide) h2
  have hL : 2 ^ 32 ≤ 2 ^ a.BITS_PER_LONG := by cases a <;> decide
  unfold dma_size u32 PAGE_SIZE
  norm_num at hle hL ⊢
  have e1 : 2 * 2 ^ k % 4294967296 = 2 * 2 ^ k := Nat.mod_eq_of_lt (by omega)
  rw [e1]
  have e2 : 2 * 2 ^ k + 2 ^ a.BITS_PER_LONG - 4096
      = (2 * 2 ^ k - 4096) + 2 ^ a.BITS_PER_LONG := by omega
  rw [e2, Nat.add_mod_right]
  exact Nat.mod_eq_of_lt (by omega)


theorem pow_bounds_exponent (k : Nat) (h1 : PAGE_SIZE ≤ 2 ^ k) (h2 : 2 ^ k ≤ 2 ^ 30) :
    12 ≤ k ∧ k ≤ 30 := by
  constructor
  · exact (Nat.pow_le_pow_iff_right (by decide : 1 < 2)).1 (by simpa [PAGE_SIZE] using h1)
  · exact (Nat.pow_le_pow_iff_right (by decide : 1 < 2)).1 h2

theorem memTranslate_of_lt (data : Nat) : memTranslate_of data < 2 ^ 32 := by
  unfold memTranslate_of
  exact lt_of_le_of_lt Nat.and_le_right (by decide)

/-- Core of the window property: the aligned window of `2^k` bytes that starts at the
translated address lies inside `[phys, phys + 2 * 2^k - PAGE_SIZE)`. -/
theorem translated_window (a : Arch) (phys k : Nat) (h1 : 12 ≤ k) (h2 : k ≤ 30)
    (halign : PAGE_SIZE ∣ phys) (hfit : phys + 2 * 2 ^ k - PAGE_SIZE ≤ 2 ^ 32) :
    2 ^ k ∣ translateAddr_of a phys (2 ^ k) (2 ^ 32 - 2 ^ k) ∧
    phys ≤ translateAddr_of a phys (2 ^ k) (2 ^ 32 - 2 ^ k) ∧
    translateAddr_of a phys (2 ^ k) (2 ^ 32 - 2 ^ k) + 2 ^ k
      ≤ phys + dma_size a (2 ^ k) := by
  obtain ⟨hlo, hhi, hdvd⟩ := two_pow_bounds k h1 (by omega)
  have hfit2 : phys + 2 ^ k - PAGE_SIZE < 2 ^ 32 := by
    unfold PAGE_SIZE at hfit ⊢
    omega
  rw [translateAddr_of_eq a phys k h1 (by omega) hfit2, dma_size_eq a k h1 h2]
  obtain ⟨hl, hu⟩ := round_down_window phys (2 ^ k) PAGE_SIZE (by decide)
    (by unfold PAGE_SIZE; exact hlo) (by unfold PAGE_SIZE; exact hdvd) halign
  refine ⟨Dvd.intro_left _ rfl, hl, ?_⟩
  unfold PAGE_SIZE at hu ⊢
  omega


/-! ## Claims about the DMA size and address arithmetic -/

/-- C3, as stated, fails: the mask `0xFFFFFFFC` has its low 2 bits cleared and yields
`memSize = 4`, below the page size; the mask `0xFFFF0FF0` has its low 2 bits cleared and
yields `memSize = 0xF010`, which is not a power of two. -/
theorem memSize_of_low_bits_cleared_counterexample :
    (memTranslate_of 0xFFFFFFFC = 0xFFFFFFFC ∧ memSize_of 0xFFFFFFFC = 4 ∧
      ¬ PAGE_SIZE ≤ memSize_of 0xFFFFFFFC) ∧
    (memTranslate_of 0xFFFF0FF0 = 0xFFFF0FF0 ∧ memSize_of 0xFFFF0FF0 = 0xF010 ∧
      ∀ k : Nat, 2 ^ k ≠ memSize_of 0xFFFF0FF0) := by
  refine ⟨⟨by decide, by decide, by decide⟩, by decide, by decide, ?_⟩
  intro k hk
  have e : memSize_of 0xFFFF0FF0 = 0xF010 := by decide
  rw [e] at hk
  by_cases h : k ≤ 15
  · have : 2 ^ k ≤ 2 ^ 15 := Nat.pow_le_pow_right (by decide) h
    omega
  · have : 2 ^ 16 ≤ 2 ^ k := Nat.pow_le_pow_right (by decide) (by omega)
    omega

/-- C3, amended: for every contiguous high mask `m = 2^32 - 2^k` with `12 ≤ k ≤ 31` (its
low 2 bits are cleared, so line 97 leaves it unchanged), `memSize = (~m) + 1` is the power
of two `2^k`, it is at least `PAGE_SIZE`, and the buffer size the code computes is at least
`memSize`; for `k ≤ 30` that size is `2 * memSize - PAGE_SIZE` without wrap-around. -/
theorem memSize_of_contiguous_mask (a : Arch) (k : Nat) (h1 : 12 ≤ k) (h2 : k ≤ 31) :
    memTranslate_of (2 ^ 32 - 2 ^ k) = 2 ^ 32 - 2 ^ k ∧
    memSize_of (2 ^ 32 - 2 ^ k) = 2 ^ k ∧
    PAGE_SIZE ≤ memSize_of (2 ^ 32 - 2 ^ k) ∧
    memSize_of (2 ^ 32 - 2 ^ k) ≤ dma_size a (memSize_of (2 ^ 32 - 2 ^ k)) ∧
    (k ≤ 30 → dma_size a (memSize_of (2 ^ 32 - 2 ^ k)) = 2 * 2 ^ k - PAGE_SIZE) := by
  obtain ⟨hlo, hhi, hdvd⟩ := two_pow_bounds k h1 h2
  rw [memSize_of_high_mask k h2]
  refine ⟨?_, rfl, by unfold PAGE_SIZE; exact hlo, ?_, fun h => dma_size_eq a k h1 h⟩
  · unfold memTranslate_of u32
    have e : (0xfffffffc : Nat) = 2 ^ 32 - 2 ^ 2 := by decide
    rw [e, and_high_mask _ 2 (Nat.mod_lt _ (by decide)) (by decide)]
    norm_num
    omega
  · by_cases h : k ≤ 30
    · rw [dma_size_eq a k h1 h]
      unfold PAGE_SIZE
      omega
    · have hk : k = 31 := by omega
      subst hk
      cases a <;> decide

/-- Witness for `memSize_of_contiguous_mask`: the mask `0xFFFF0000` of Scenario B. -/
theorem memSize_of_contiguous_mask_witness :
    memTranslate_of (2 ^ 32 - 2 ^ 16) = 2 ^ 32 - 2 ^ 16 ∧
    memSize_of (2 ^ 32 - 2 ^ 16) = 2 ^ 16 ∧
    PAGE_SIZE ≤ memSize_of (2 ^ 32 - 2 ^ 16) ∧
    memSize_of (2 ^ 32 - 2 ^ 16) ≤ dma_size Arch.lp64 (memSize_of (2 ^ 32 - 2 ^ 16)) ∧
    (16 ≤ 30 → dma_size Arch.lp64 (memSize_of (2 ^ 32 - 2 ^ 16)) = 2 * 2 ^ 16 - PAGE_SIZE) :=
  memSize_of_contiguous_mask Arch.lp64 16 (by decide) (by decide)

/-- C2, as stated, fails.  With `memSize = 4` (mask `0xFFFFFFFC`) and the page-aligned
device address `0x10000`, the translated address is `0xF004`, below the buffer.  With
`memSize = 0x10000` (mask `0xFFFF0000`) and the device address `0x100000000` on a 64-bit DMA
platform, the 32-bit mask cuts the translated address down to `0`.  With `memSize = 0x1000`
and the unaligned device address `0x10800` it is `0x10000`. -/
theorem translateAddr_of_counterexample :
    (memSize_of 0xFFFFFFFC = 4 ∧ translateAddr_of Arch.lp64 0x10000 4 0xFFFFFFFC = 0xF004 ∧
      ¬ 0x10000 ≤ translateAddr_of Arch.lp64 0x10000 4 0xFFFFFFFC) ∧
    (memSize_of 0xFFFF0000 = 0x10000 ∧
      translateAddr_of Arch.lp64 0x100000000 0x10000 0xFFFF0000 = 0 ∧
      ¬ 0x100000000 ≤ translateAddr_of Arch.lp64 0x100000000 0x10000 0xFFFF0000) ∧
    (memSize_of 0xFFFFF000 = 0x1000 ∧
      translateAddr_of Arch.lp64 0x10800 0x1000 0xFFFFF000 = 0x10000 ∧
      ¬ 0x10800 ≤ translateAddr_of Arch.lp64 0x10800 0x1000 0xFFFFF000) := by
  refine ⟨⟨by decide, by decide, by decide⟩, ⟨by decide, by decide, by decide⟩,
    by decide, by decide, by decide⟩

/-- C2, amended: when `memSize` is a power of two with `PAGE_SIZE ≤ memSize ≤ 2^30`, `m` is
the 32-bit mask it was derived from, the device address is a multiple of `PAGE_SIZE` and
the buffer ends at or below `2^32`, the translated address lies in
`[device_addr, device_addr + size)` with `size` the buffer size the code computes. -/
theorem translateAddr_of_in_buffer (a : Arch) (device_addr memSize m k : Nat)
    (hm : m < 2 ^ 32) (hderived : memSize = memSize_of m) (hpow : memSize = 2 ^ k)
    (hpage : PAGE_SIZE ≤ memSize) (hmax : memSize ≤ 2 ^ 30)
    (halign : PAGE_SIZE ∣ device_addr)
    (hfit : device_addr + 2 * memSize - PAGE_SIZE ≤ 2 ^ 32) :
    device_addr ≤ translateAddr_of a device_addr memSize m ∧
    translateAddr_of a device_addr memSize m < device_addr + dma_size a memSize := by
  subst hpow
  obtain ⟨h1, h2⟩ := pow_bounds_exponent k hpage hmax
  have hmask : m = 2 ^ 32 - 2 ^ k := mask_of_memSize m k hm (by omega) hderived.symm
  subst hmask
  obtain ⟨-, hl, hu⟩ := translated_window a device_addr k h1 h2 halign hfit
  have hp : 0 < 2 ^ k := Nat.pos_pow_of_pos k (by decide)
  exact ⟨hl, by omega⟩

/-- Witness for `translateAddr_of_in_buffer`: Scenario B's mask `0xFFFF0000` with the
buffer at device address `0x12345000`. -/
theorem translateAddr_of_in_buffer_witness :
    0x12345000 ≤ translateAddr_of Arch.lp64 0x12345000 0x10000 0xFFFF0000 ∧
    translateAddr_of Arch.lp64 0x12345000 0x10000 0xFFFF0000
      < 0x12345000 + dma_size Arch.lp64 0x10000 :=
  translateAddr_of_in_buffer Arch.lp64 0x12345000 0x10000 0xFFFF0000 16 (by decide)
    (by decide) (by decide) (by decide) (by decide) (by decide) (by decide)

/-- C10: for a readback whose `memSize` is a power of two with
`PAGE_SIZE ≤ memSize ≤ 2^30`, a device address that is a multiple of `PAGE_SIZE` and a
buffer that ends at or below `2^32`, the translated address `ccat_dma_init` writes to the
device is a multiple of `memSize`, the window of `memSize` bytes that starts there lies
inside the allocation, and the frame pointer is at an offset in `[0, size)` from `virt`. -/
theorem translateAddr_aligned_window (a : Arch) (data phys virt k : Nat)
    (hpow : memSize_of (memTranslate_of data) = 2 ^ k)
    (hpage : PAGE_SIZE ≤ memSize_of (memTranslate_of data))
    (hmax : memSize_of (memTranslate_of data) ≤ 2 ^ 30)
    (halign : PAGE_SIZE ∣ phys)
    (hfit : phys + 2 * memSize_of (memTranslate_of data) - PAGE_SIZE ≤ 2 ^ 32) :
    memSize_of (memTranslate_of data) ∣
      translateAddr_of a phys (memSize_of (memTranslate_of data)) (memTranslate_of data) ∧
    phys ≤ translateAddr_of a phys (memSize_of (memTranslate_of data)) (memTranslate_of data) ∧
    translateAddr_of a phys (memSize_of (memTranslate_of data)) (memTranslate_of data)
        + memSize_of (memTranslate_of data)
      ≤ phys + dma_size a (memSize_of (memTranslate_of data)) ∧
    0 ≤ frame_of virt
        (translateAddr_of a phys (memSize_of (memTranslate_of data)) (memTranslate_of data))
        phys - virt ∧
    frame_of virt
        (translateAddr_of a phys (memSize_of (memTranslate_of data)) (memTranslate_of data))
        phys - virt < dma_size a (memSize_of (memTranslate_of data)) := by
  rw [hpow] at hpage hmax hfit
  obtain ⟨h1, h2⟩ := pow_bounds_exponent k hpage hmax
  have hmask : memTranslate_of data = 2 ^ 32 - 2 ^ k :=
    mask_of_memSize _ k (memTranslate_of_lt data) (by omega) hpow
  rw [hpow, hmask]
  obtain ⟨hd, hl, hu⟩ := translated_window a phys k h1 h2 halign hfit
  have hp : 0 < 2 ^ k := Nat.pos_pow_of_pos k (by decide)
  refine ⟨hd, hl, hu, ?_, ?_⟩
  · unfold frame_of
    omega
  · unfold frame_of
    omega

/-- Witness for `translateAddr_aligned_window`: readback `0xFFFF0003` (mask `0xFFFF0000`),
buffer at device address `0x12345000` and CPU address `0x80000000`. -/
theorem translateAddr_aligned_window_witness :
    memSize_of (memTranslate_of 0xFFFF0003) ∣
      translateAddr_of Arch.ilp32 0x12345000 (memSize_of (memTranslate_of 0xFFFF0003))
        (memTranslate_of 0xFFFF0003) ∧
    0x12345000 ≤ translateAddr_of Arch.ilp32 0x12345000
      (memSize_of (memTranslate_of 0xFFFF0003)) (memTranslate_of 0xFFFF0003) ∧
    translateAddr_of Arch.ilp32 0x12345000 (memSize_of (memTranslate_of 0xFFFF0003))
        (memTranslate_of 0xFFFF0003) + memSize_of (memTranslate_of 0xFFFF0003)
      ≤ 0x12345000 + dma_size Arch.ilp32 (memSize_of (memTranslate_of 0xFFFF0003)) ∧
    0 ≤ frame_of 0x80000000
        (translateAddr_of Arch.ilp32 0x12345000 (memSize_of (memTranslate_of 0xFFFF0003))
          (memTranslate_of 0xFFFF0003)) 0x12345000 - (0x80000000 : Nat) ∧
    frame_of 0x80000000
        (translateAddr_of Arch.ilp32 0x12345000 (memSize_of (memTranslate_of 0xFFFF0003))
          (memTranslate_of 0xFFFF0003)) 0x12345000 - (0x80000000 : Nat)
      < dma_size Arch.ilp32 (memSize_of (memTranslate_of 0xFFFF0003)) :=
  translateAddr_aligned_window Arch.ilp32 0xFFFF0003 0x12345000 0x80000000 16 (by decide)
    (by decide) (by decide) (by decide) (by decide)


/-! ## The function-table scan -/

theorem type_reads_succ_left (base count : Nat) :
    type_reads base (count + 1)
      = Call.ioread16 base :: type_reads (base + sizeof_ccat_info_block) count := by
  unfold type_reads
  rw [List.range_succ_eq_map, List.map_cons, List.map_map]
  simp only [Nat.zero_mul, Nat.add_zero, List.cons.injEq, true_and]
  apply List.map_congr_left
  intro i _
  simp only [Function.comp, Nat.succ_eq_add_one]
  congr 1
  ring

/-- A scan over `n` entries none of which carries the tag `0x14` reads the `n` type tags and
falls through with the status it was entered with. -/
theorem ccat_init_pci_scan_no_match (env : Env) (n : Nat) :
    ∀ (base : Nat) (status : Int) (priv : ccat_eth_priv) (p : Platform),
    (∀ j, j < n → entry_type env base j ≠ CCATINFO_ETHERCAT_MASTER_DMA) →
    ccat_init_pci_scan env n base status priv p
      = (status, priv, { p with trace := p.trace ++ type_reads base n }) := by
  induction n with
  | zero =>
    intro base status priv p _
    simp [ccat_init_pci_scan, type_reads]
  | succ n ih =>
    intro base status priv p h
    have h0 : ¬ CCATINFO_ETHERCAT_MASTER_DMA = env.ioread16 base % 2 ^ 16 := by
      have := h 0 (Nat.succ_pos n)
      unfold entry_type at this
      simp only [Nat.zero_mul, Nat.add_zero] at this
      exact fun e => this e.symm
    have hrest : ∀ j, j < n →
        entry_type env (base + sizeof_ccat_info_block) j ≠ CCATINFO_ETHERCAT_MASTER_DMA := by
      intro j hj
      have := h (j + 1) (Nat.succ_lt_succ hj)
      unfold entry_type at this ⊢
      rwa [Nat.add_mul, Nat.one_mul, Nat.add_comm (j * _), ← Nat.add_assoc] at this
    unfold ccat_init_pci_scan
    simp only [h0, if_false]
    rw [ih _ status priv _ hrest, type_reads_succ_left]
    simp [Platform.log]

/-- A scan whose lowest-index entry with tag `0x14` is entry `k < n` reads the type tags of
entries `0 .. k`, hands the address of entry `k` to `ccat_eth_init`, and returns what that
call returns. -/
theorem ccat_init_pci_scan_match (env : Env) (k : Nat) :
    ∀ (n base : Nat) (status : Int) (priv : ccat_eth_priv) (p : Platform),
    k < n → entry_type env base k = CCATINFO_ETHERCAT_MASTER_DMA →
    (∀ j, j < k → entry_type env base j ≠ CCATINFO_ETHERCAT_MASTER_DMA) →
    ccat_init_pci_scan env n base status priv p
      = env.ccat_eth_init priv (base + k * sizeof_ccat_info_block)
          { p with trace := p.trace ++ type_reads base (k + 1)
              ++ [Call.ccat_eth_init (base + k * sizeof_ccat_info_block)] } := by
  induction k with
  | zero =>
    intro n base status priv p hn hk _
    obtain ⟨n, rfl⟩ : ∃ n', n = n' + 1 := ⟨n - 1, by omega⟩
    have h0 : CCATINFO_ETHERCAT_MASTER_DMA = env.ioread16 base % 2 ^ 16 := by
      unfold entry_type at hk
      simp only [Nat.zero_mul, Nat.add_zero] at hk
      exact hk.symm
    unfold ccat_init_pci_scan
    simp only [h0, if_true]
    simp [Platform.log, type_reads, List.range_succ]
  | succ k ih =>
    intro n base status priv p hn hk hfirst
    obtain ⟨n, rfl⟩ : ∃ n', n = n' + 1 := ⟨n - 1, by omega⟩
    have h0 : ¬ CCATINFO_ETHERCAT_MASTER_DMA = env.ioread16 base % 2 ^ 16 := by
      have := hfirst 0 (Nat.succ_pos k)
      unfold entry_type at this
      simp only [Nat.zero_mul, Nat.add_zero] at this
      exact fun e => this e.symm
    have shift : ∀ j, entry_type env (base + sizeof_ccat_info_block) j
        = entry_type env base (j + 1) := by
      intro j
      unfold entry_type
      rw [Nat.add_mul, Nat.one_mul, Nat.add_comm (j * _), ← Nat.add_assoc]
    have hk2 : entry_type env (base + sizeof_ccat_info_block) k
        = CCATINFO_ETHERCAT_MASTER_DMA := by rw [shift]; exact hk
    have hfirst2 : ∀ j, j < k →
        entry_type env (base + sizeof_ccat_info_block) j ≠ CCATINFO_ETHERCAT_MASTER_DMA := by
      intro j hj
      rw [shift]
      exact hfirst (j + 1) (Nat.succ_lt_succ hj)
    have haddr : base + sizeof_ccat_info_block + k * sizeof_ccat_info_block
        = base + (k + 1) * sizeof_ccat_info_block := by ring
    unfold ccat_init_pci_scan
    simp only [h0, if_false]
    rw [ih n _ status priv _ (by omega) hk2 hfirst2, type_reads_succ_left base (k + 1), haddr]
    simp [Platform.log]


/-- C8: if some entry with index below `n` has type tag `0x14`, the scan loop reads the
type tags of entries `0 .. k` in order, where `k` is the lowest index with that tag, hands
the address `base + k * sizeof(struct ccat_info_block)` to `ccat_eth_init` once, and returns
what that call returns: no type tag of an entry beyond `k` is read. -/
theorem ccat_init_pci_scan_first_match (env : Env) (n base : Nat) (status : Int)
    (priv : ccat_eth_priv) (p : Platform)
    (h : ∃ j, j < n ∧ entry_type env base j = CCATINFO_ETHERCAT_MASTER_DMA) :
    ∃ k, k < n ∧ entry_type env base k = CCATINFO_ETHERCAT_MASTER_DMA ∧
      (∀ j, j < k → entry_type env base j ≠ CCATINFO_ETHERCAT_MASTER_DMA) ∧
      ccat_init_pci_scan env n base status priv p
        = env.ccat_eth_init priv (base + k * sizeof_ccat_info_block)
            { p with trace := p.trace ++ type_reads base (k + 1)
                ++ [Call.ccat_eth_init (base + k * sizeof_ccat_info_block)] } := by
  classical
  have hk := Nat.find_spec h
  have hmin : ∀ j, j < Nat.find h → entry_type env base j ≠ CCATINFO_ETHERCAT_MASTER_DMA := by
    intro j hj hj2
    exact Nat.find_min h hj ⟨lt_trans hj hk.1, hj2⟩
  exact ⟨Nat.find h, hk.1, hk.2, hmin,
    ccat_init_pci_scan_match env (Nat.find h) n base status priv p hk.1 hk.2 hmin⟩

/-- Witness for `ccat_init_pci_scan_first_match`: Scenario C, entries `[0xd, 0x14]` with an
entry count of 5; the scan reads entries 0 and 1 and hands entry 1 to `ccat_eth_init`. -/
theorem ccat_init_pci_scan_first_match_witness :
    (∃ k, k < 5 ∧ entry_type Env.scenarioC 0xF0000000 k = CCATINFO_ETHERCAT_MASTER_DMA ∧
      (∀ j, j < k →
        entry_type Env.scenarioC 0xF0000000 j ≠ CCATINFO_ETHERCAT_MASTER_DMA) ∧
      ccat_init_pci_scan Env.scenarioC 5 0xF0000000 0 ccat_eth_priv.zero Platform.empty
        = Env.scenarioC.ccat_eth_init ccat_eth_priv.zero
            (0xF0000000 + k * sizeof_ccat_info_block)
            { Platform.empty with trace := (Platform.empty.trace
                ++ type_reads 0xF0000000 (k + 1)
                ++ [Call.ccat_eth_init (0xF0000000 + k * sizeof_ccat_info_block)]) }) ∧
    ccat_init_pci_scan Env.scenarioC 5 0xF0000000 0 ccat_eth_priv.zero Platform.empty
      = (0, ccat_eth_priv.zero, { Platform.empty with trace :=
          [Call.ioread16 0xF0000000, Call.ioread16 0xF0000010,
           Call.ccat_eth_init 0xF0000010] }) :=
  ⟨ccat_init_pci_scan_first_match Env.scenarioC 5 0xF0000000 0 ccat_eth_priv.zero
      Platform.empty ⟨1, by decide, by decide⟩, by decide⟩

/-- C1, evaluated on Scenario D (a table of two entries, tags `0xd` and `0xf`, none `0x14`;
device enable, revision read and both region acquisitions succeed): `ccat_init_pci` issues
no `ccat_eth_init` and no DMA allocation, but returns `0`, the status of the revision
read, not a failure status. -/
theorem ccat_init_pci_function_not_found_returns_zero :
    (∀ j, j < 2 → entry_type Env.scenarioD 0xF0000000 j ≠ CCATINFO_ETHERCAT_MASTER_DMA) ∧
    (ccat_init_pci Env.scenarioD { ccat_eth_priv.zero with pdev := 1 } Platform.empty).1 = 0 ∧
    (ccat_init_pci Env.scenarioD { ccat_eth_priv.zero with pdev := 1 }
        Platform.empty).2.2.trace
      = [Call.pci_enable_device 1, Call.pci_set_master 1, Call.pci_read_config_byte 1,
         Call.dma_set_mask 1 64,
         Call.request_mem_region 0xF0000000 0x10000, Call.ioremap 0xF0000000 0x10000,
         Call.request_mem_region 0xF0200000 0x10000, Call.ioremap 0xF0200000 0x10000,
         Call.ioread8 0xF0000004, Call.ioread16 0xF0000000, Call.ioread16 0xF0000010] := by
  refine ⟨by decide, by decide, by decide⟩

/-! ## Region acquisition and DMA teardown -/

/-- C7: when `ccat_bar_init` returns non-zero, the reserved ranges and the mapped views are
those from before the call.  A resource without `IORESOURCE_MEM` is rejected before any
call is issued; a failed `request_mem_region` is the only call issued; a failed `ioremap`
is followed by the release of the range reserved in this call. -/
theorem ccat_bar_init_failure_rollback (env : Env) (bar : ccat_bar) (index pdev : Nat)
    (p : Platform) (h : (ccat_bar_init env bar index pdev p).1 ≠ 0) :
    (ccat_bar_init env bar index pdev p).2.2.reserved = p.reserved ∧
    (ccat_bar_init env bar index pdev p).2.2.mapped = p.mapped ∧
    (IORESOURCE_MEM &&& env.pci_resource_flags pdev index = 0 →
      (ccat_bar_init env bar index pdev p).2.2 = p) ∧
    ((ccat_bar_init env bar index pdev p).2.2.trace = p.trace ∨
     (ccat_bar_init env bar index pdev p).2.2.trace = p.trace ++
        [Call.request_mem_region (env.pci_resource_start pdev index)
          (env.pci_resource_len pdev index)] ∨
     (ccat_bar_init env bar index pdev p).2.2.trace = p.trace ++
        [Call.request_mem_region (env.pci_resource_start pdev index)
          (env.pci_resource_len pdev index),
         Call.ioremap (env.pci_resource_start pdev index) (env.pci_resource_len pdev index),
         Call.release_mem_region (env.pci_resource_start pdev index)
          (env.pci_resource_len pdev index)]) := by
  by_cases hf : IORESOURCE_MEM &&& env.pci_resource_flags pdev index = 0
  · simp [ccat_bar_init, hf]
  · by_cases hc : (env.region_grant (env.pci_resource_start pdev index)
        (env.pci_resource_len pdev index) && !(p.reserved.any
          (overlaps (env.pci_resource_start pdev index, env.pci_resource_len pdev index))))
        = true
    · by_cases hm : env.ioremap (env.pci_resource_start pdev index)
          (env.pci_resource_len pdev index) = 0
      · simp [ccat_bar_init, request_mem_region, ioremap, release_mem_region, Platform.log,
          hf, hc, hm]
      · exfalso
        apply h
        simp [ccat_bar_init, request_mem_region, ioremap, Platform.log, hf, hc, hm]
    · simp [ccat_bar_init, request_mem_region, Platform.log, hf, hc]

/-- Witness for `ccat_bar_init_failure_rollback`: `ioremap` fails on bar 0 of a platform
that already has one reservation and one mapping. -/
theorem ccat_bar_init_failure_rollback_witness :
    (ccat_bar_init { Env.quiet with ioremap := fun _ _ => 0 } ccat_bar.zero 0 1
        ⟨[(0x1000, 0x100)], [⟨0x2000, 0x1000, 0x100⟩], [], [], []⟩).1 ≠ 0 ∧
    (ccat_bar_init { Env.quiet with ioremap := fun _ _ => 0 } ccat_bar.zero 0 1
        ⟨[(0x1000, 0x100)], [⟨0x2000, 0x1000, 0x100⟩], [], [], []⟩).2.2.reserved
      = [(0x1000, 0x100)] ∧
    (ccat_bar_init { Env.quiet with ioremap := fun _ _ => 0 } ccat_bar.zero 0 1
        ⟨[(0x1000, 0x100)], [⟨0x2000, 0x1000, 0x100⟩], [], [], []⟩).2.2.mapped
      = [⟨0x2000, 0x1000, 0x100⟩] :=
  have h := ccat_bar_init_failure_rollback { Env.quiet with ioremap := fun _ _ => 0 }
    ccat_bar.zero 0 1 ⟨[(0x1000, 0x100)], [⟨0x2000, 0x1000, 0x100⟩], [], [], []⟩ (by decide)
  ⟨by decide, h.1, h.2.1⟩

/-- The size the code computes for a `memSize` below the page size is either too small to
hold `memSize` bytes or has wrapped around to the top of the `size_t` range. -/
theorem dma_size_small (a : Arch) (memSize : Nat) (h : memSize < PAGE_SIZE) :
    dma_size a memSize < memSize ∨ 2 ^ a.BITS_PER_LONG - PAGE_SIZE ≤ dma_size a memSize := by
  have hL : 2 ^ 32 ≤ 2 ^ a.BITS_PER_LONG := by cases a <;> decide
  unfold dma_size u32 PAGE_SIZE at *
  norm_num at hL ⊢
  have e1 : 2 * memSize % 4294967296 = 2 * memSize := Nat.mod_eq_of_lt (by omega)
  rw [e1]
  by_cases hc : 2048 ≤ memSize
  · left
    have e2 : 2 * memSize + 2 ^ a.BITS_PER_LONG - 4096
        = (2 * memSize - 4096) + 2 ^ a.BITS_PER_LONG := by omega
    rw [e2, Nat.add_mod_right, Nat.mod_eq_of_lt (by omega)]
    omega
  · right
    rw [Nat.mod_eq_of_lt (by omega)]
    omega

/-- The successful run of `ccat_dma_init`: when the allocation yields a non-null CPU
address and a non-zero device address and the channel is in range and not held, the call
returns `0`, the descriptor holds the channel, the device, the computed size and both
addresses, and the value written to the device is the translated address. -/
theorem ccat_dma_init_success (a : Arch) (env : Env) (dma : ccat_dma)
    (channel ioaddr dev : Nat) (p : Platform)
    (hv : (dma_zalloc_coherent a env p dev (dma_size a (memSize_of (memTranslate_of
      (u32 (env.ioread32 (ioaddr + dma_offset channel))))))).1.1 ≠ 0)
    (hp : (dma_zalloc_coherent a env p dev (dma_size a (memSize_of (memTranslate_of
      (u32 (env.ioread32 (ioaddr + dma_offset channel))))))).1.2 ≠ 0)
    (hrange : u32 channel < env.MAX_DMA_CHANNELS) (hfree : u32 channel ∉ p.channels) :
    (ccat_dma_init a env dma channel ioaddr dev p).1 = 0 ∧
    (ccat_dma_init a env dma channel ioaddr dev p).2.1
      = ⟨(dma_zalloc_coherent a env p dev (dma_size a (memSize_of (memTranslate_of
          (u32 (env.ioread32 (ioaddr + dma_offset channel))))))).1.2,
        (dma_zalloc_coherent a env p dev (dma_size a (memSize_of (memTranslate_of
          (u32 (env.ioread32 (ioaddr + dma_offset channel))))))).1.1,
        dma_size a (memSize_of (memTranslate_of
          (u32 (env.ioread32 (ioaddr + dma_offset channel))))), channel, dev⟩ ∧
    (ccat_dma_init a env dma channel ioaddr dev p).2.2.trace = p.trace ++
      [Call.iowrite32 0xffffffff (ioaddr + dma_offset channel), Call.wmb,
       Call.ioread32 (ioaddr + dma_offset channel),
       Call.dma_zalloc_coherent dev (dma_size a (memSize_of (memTranslate_of
          (u32 (env.ioread32 (ioaddr + dma_offset channel)))))),
       Call.request_dma (u32 channel),
       Call.memcpy_toio (ioaddr + dma_offset channel)
        (translateAddr_of a
          (dma_zalloc_coherent a env p dev (dma_size a (memSize_of (memTranslate_of
            (u32 (env.ioread32 (ioaddr + dma_offset channel))))))).1.2
          (memSize_of (memTranslate_of (u32 (env.ioread32 (ioaddr + dma_offset channel)))))
          (memTranslate_of (u32 (env.ioread32 (ioaddr + dma_offset channel))))),
       Call.ioread32 (ioaddr + dma_offset channel + 4),
       Call.ioread32 (ioaddr + dma_offset channel)] := by
  unfold dma_zalloc_coherent at hv hp
  have hv2 : (env.dma_zalloc_coherent dev (dma_size a (memSize_of (memTranslate_of
      (u32 (env.ioread32 (ioaddr + dma_offset channel))))))).1 % 2 ^ a.BITS_PER_LONG ≠ 0 := by
    intro h
    simp [h] at hv
  have hp2 : (env.dma_zalloc_coherent dev (dma_size a (memSize_of (memTranslate_of
      (u32 (env.ioread32 (ioaddr + dma_offset channel))))))).2 % 2 ^ a.dma_addr_bits ≠ 0 := by
    intro h
    simp [hv2, h] at hp
  have hr : ¬ env.MAX_DMA_CHANNELS ≤ u32 channel := by omega
  refine ⟨?_, ?_, ?_⟩ <;>
    simp [ccat_dma_init, dma_zalloc_coherent, request_dma, Platform.log, hv2, hp2, hr, hfree]

/-- C4, as stated, fails.  On Scenario A (readback `0xFFFFFFFC`, `memSize = 4`) the code
requests a coherent allocation of the wrapped size `2^64 - 4088` before it can fail; when
the platform refuses it the result is `-1`, and when the platform grants it the DMA channel
is requested and the result is `0`. -/
theorem ccat_dma_init_small_memSize_counterexample :
    memSize_of (memTranslate_of 0xFFFFFFFC) = 4 ∧ 4 < PAGE_SIZE ∧
    (ccat_dma_init Arch.lp64 Env.scenarioA ccat_dma.zero 0 0xF0000000 7 Platform.empty).1
      = -1 ∧
    (ccat_dma_init Arch.lp64 Env.scenarioA ccat_dma.zero 0 0xF0000000 7
        Platform.empty).2.2.trace
      = [Call.iowrite32 0xffffffff 0xF0001000, Call.wmb, Call.ioread32 0xF0001000,
         Call.dma_zalloc_coherent 7 18446744073709547528] ∧
    (ccat_dma_init Arch.lp64 Env.scenarioA_granting ccat_dma.zero 0 0xF0000000 7
        Platform.empty).1 = 0 ∧
    (ccat_dma_init Arch.lp64 Env.scenarioA_granting ccat_dma.zero 0 0xF0000000 7
        Platform.empty).2.2.trace
      = [Call.iowrite32 0xffffffff 0xF0001000, Call.wmb, Call.ioread32 0xF0001000,
         Call.dma_zalloc_coherent 7 18446744073709547528, Call.request_dma 0,
         Call.memcpy_toio 0xF0001000 0x12344004, Call.ioread32 0xF0001004,
         Call.ioread32 0xF0001000] := by
  refine ⟨by decide, by decide, by decide, by decide, by decide, by decide⟩

/-- C4, amended: for every readback whose derived `memSize` is below `PAGE_SIZE`,
`ccat_dma_init` does not validate `memSize`; it requests one coherent allocation of the
size the code computes (a size below `memSize`, or one that wrapped around), and when that
allocation fails (null CPU address or zero device address) it returns `-1` without
requesting the DMA channel. -/
theorem ccat_dma_init_small_memSize (a : Arch) (env : Env) (dma : ccat_dma)
    (channel ioaddr dev : Nat) (p : Platform)
    (hsmall : memSize_of (memTranslate_of (u32 (env.ioread32 (ioaddr + dma_offset channel))))
      < PAGE_SIZE)
    (hfail : (env.dma_zalloc_coherent dev (dma_size a (memSize_of (memTranslate_of
          (u32 (env.ioread32 (ioaddr + dma_offset channel))))))).1 % 2 ^ a.BITS_PER_LONG = 0 ∨
      (env.dma_zalloc_coherent dev (dma_size a (memSize_of (memTranslate_of
          (u32 (env.ioread32 (ioaddr + dma_offset channel))))))).2 % 2 ^ a.dma_addr_bits = 0) :
    (ccat_dma_init a env dma channel ioaddr dev p).1 = -1 ∧
    (ccat_dma_init a env dma channel ioaddr dev p).2.2.trace = p.trace ++
      [Call.iowrite32 0xffffffff (ioaddr + dma_offset channel), Call.wmb,
       Call.ioread32 (ioaddr + dma_offset channel),
       Call.dma_zalloc_coherent dev (dma_size a (memSize_of (memTranslate_of
          (u32 (env.ioread32 (ioaddr + dma_offset channel))))))] ∧
    (dma_size a (memSize_of (memTranslate_of
        (u32 (env.ioread32 (ioaddr + dma_offset channel)))))
      < memSize_of (memTranslate_of (u32 (env.ioread32 (ioaddr + dma_offset channel)))) ∨
     2 ^ a.BITS_PER_LONG - PAGE_SIZE ≤ dma_size a (memSize_of (memTranslate_of
        (u32 (env.ioread32 (ioaddr + dma_offset channel)))))) := by
  refine ⟨?_, ?_, dma_size_small a _ hsmall⟩
  · unfold ccat_dma_init dma_zalloc_coherent
    by_cases hv : (env.dma_zalloc_coherent dev (dma_size a (memSize_of (memTranslate_of
          (u32 (env.ioread32 (ioaddr + dma_offset channel))))))).1 % 2 ^ a.BITS_PER_LONG = 0
    · simp [hv]
    · have hp := hfail.resolve_left hv
      simp [hv, hp]
  · unfold ccat_dma_init dma_zalloc_coherent
    by_cases hv : (env.dma_zalloc_coherent dev (dma_size a (memSize_of (memTranslate_of
          (u32 (env.ioread32 (ioaddr + dma_offset channel))))))).1 % 2 ^ a.BITS_PER_LONG = 0
    · simp [hv, Platform.log]
    · have hp := hfail.resolve_left hv
      simp [hv, hp, Platform.log]

/-- Witness for `ccat_dma_init_small_memSize`: Scenario A on channel 0. -/
theorem ccat_dma_init_small_memSize_witness :
    (ccat_dma_init Arch.lp64 Env.scenarioA ccat_dma.zero 0 0xF0000000 7 Platform.empty).1
      = -1 ∧
    (ccat_dma_init Arch.lp64 Env.scenarioA ccat_dma.zero 0 0xF0000000 7
        Platform.empty).2.2.trace = Platform.empty.trace ++
      [Call.iowrite32 0xffffffff (0xF0000000 + dma_offset 0), Call.wmb,
       Call.ioread32 (0xF0000000 + dma_offset 0),
       Call.dma_zalloc_coherent 7 (dma_size Arch.lp64 (memSize_of (memTranslate_of
          (u32 (Env.scenarioA.ioread32 (0xF0000000 + dma_offset 0))))))] ∧
    (dma_size Arch.lp64 (memSize_of (memTranslate_of
        (u32 (Env.scenarioA.ioread32 (0xF0000000 + dma_offset 0)))))
      < memSize_of (memTranslate_of (u32 (Env.scenarioA.ioread32 (0xF0000000 + dma_offset 0)))) ∨
     2 ^ Arch.lp64.BITS_PER_LONG - PAGE_SIZE ≤ dma_size Arch.lp64 (memSize_of (memTranslate_of
        (u32 (Env.scenarioA.ioread32 (0xF0000000 + dma_offset 0)))))) :=
  ccat_dma_init_small_memSize Arch.lp64 Env.scenarioA ccat_dma.zero 0 0xF0000000 7
    Platform.empty (by decide) (Or.inl (by decide))

/-- C5, evaluated where `request_dma` fails because channel 3 is held by another owner
(Scenario B's readback, allocation granted): `ccat_dma_init` returns `-1` and frees the
buffer it allocated, but its rollback also issues `free_dma(3)` for the channel it did not
obtain, after which the other owner's channel is no longer held. -/
theorem ccat_dma_init_request_dma_failure_frees_channel :
    (ccat_dma_init Arch.lp64 Env.scenarioB ccat_dma.zero 3 0xF0000000 7
        Platform.channel3_held).1 = -1 ∧
    (ccat_dma_init Arch.lp64 Env.scenarioB ccat_dma.zero 3 0xF0000000 7
        Platform.channel3_held).2.2.trace
      = [Call.iowrite32 0xffffffff 0xF0001018, Call.wmb, Call.ioread32 0xF0001018,
         Call.dma_zalloc_coherent 7 126976, Call.request_dma 3, Call.free_dma 3,
         Call.memset_dma, Call.dma_free_coherent 7 126976 0x80000000 0x12345000] ∧
    (ccat_dma_init Arch.lp64 Env.scenarioB ccat_dma.zero 3 0xF0000000 7
        Platform.channel3_held).2.2.buffers = [] ∧
    Platform.channel3_held.channels = [3] ∧
    (ccat_dma_init Arch.lp64 Env.scenarioB ccat_dma.zero 3 0xF0000000 7
        Platform.channel3_held).2.2.channels = [] := by
  refine ⟨by decide, by decide, by decide, by decide, by decide⟩

/-- When the allocator reports a non-null CPU address with the device address `0`,
`ccat_dma_init` returns `-1` without calling `request_dma` and leaves the buffer live. -/
theorem ccat_dma_init_zero_phys_keeps_buffer :
    (ccat_dma_init Arch.lp64 Env.scenarioB_zero_phys ccat_dma.zero 3 0xF0000000 7
        Platform.empty).1 = -1 ∧
    (ccat_dma_init Arch.lp64 Env.scenarioB_zero_phys ccat_dma.zero 3 0xF0000000 7
        Platform.empty).2.2.trace
      = [Call.iowrite32 0xffffffff 0xF0001018, Call.wmb, Call.ioread32 0xF0001018,
         Call.dma_zalloc_coherent 7 126976] ∧
    (ccat_dma_init Arch.lp64 Env.scenarioB_zero_phys ccat_dma.zero 3 0xF0000000 7
        Platform.empty).2.2.buffers = [⟨7, 126976, 0x80000000, 0⟩] := by
  refine ⟨by decide, by decide, by decide⟩

/-! ## Teardown after a failed bring-up -/

end CCAT
